import Mathlib

/-!
# go-sysinfo2ollama: the tool-calling conversation driver

A shallow embedding of `main.go`.  The program talks to three external
collaborators: the process environment (`os.Getenv`), sub-processes
(`exec.Command(...).Output()`) and the chat server (`client.Chat`).  They are
gathered in `World`; every answer of the world may depend on the whole history
of observable events so far, so repeated invocations of one probe may give
different answers.  Every function that has an effect takes the event trace
and returns the extended trace.
-/

namespace Sysinfo2Ollama

set_option maxRecDepth 100000

/-! ## Data model (the fields of the `api` records that `main.go` touches) -/

/-- Go `error` values met by the program: the package-level sentinel
`ErrNoSuchFunc` and errors produced by the external collaborators. -/
inductive GoError where
  | noSuchFunc
  | external (msg : String)
  deriving DecidableEq, Repr

/-- The sentinel `var ErrNoSuchFunc = errors.New("no such func")`. -/
def ErrNoSuchFunc : GoError := GoError.noSuchFunc

/-- The record `api.ToolCallFunction`; `Arguments` is an opaque mapping kept as
its list of key/value entries. -/
structure ToolCallFunction where
  Name : String
  Arguments : List (String × String)
  deriving DecidableEq, Repr

/-- The record `api.ToolCall`. -/
structure ToolCall where
  Function : ToolCallFunction
  deriving DecidableEq, Repr

/-- The record `api.Message`. -/
structure Message where
  Role : String
  Content : String
  ToolCalls : List ToolCall
  deriving DecidableEq, Repr

/-- The record `api.ToolFunction`. -/
structure ToolFunction where
  Name : String
  Description : String
  deriving DecidableEq, Repr

/-- The record `api.Tool`; `Type_` is its field `Type`. -/
structure Tool where
  Type_ : String
  Function : ToolFunction
  deriving DecidableEq, Repr

/-- The record `api.ChatRequest`; `Stream` is a `*bool`, `Format` a
`json.RawMessage` kept as its text. -/
structure ChatRequest where
  Model : String
  Messages : List Message
  Stream : Option Bool
  Tools : List Tool
  Format : String
  deriving DecidableEq, Repr

/-- The record `api.ChatResponse`. -/
structure ChatResponse where
  Message : Message
  deriving DecidableEq, Repr

/-- Observable events of a run, in the order they happen. -/
inductive Event where
  | exec (argv : List String)
  | chatReq (req : ChatRequest)
  | stdout (text : String)
  | log (text : String)
  deriving DecidableEq, Repr

/-- The external collaborators.  `environ` is the process environment,
`clientFromEnvironment` the error (if any) of `api.ClientFromEnvironment`,
`cmdOutput` the result `(output, err)` of `cmd.Output()` for a command line,
`clientChat` the behaviour of `client.Chat`: the responses it hands to the
callback, in order, and the error it returns. -/
structure World where
  environ : String → Option String
  clientFromEnvironment : Option GoError
  cmdOutput : List Event → List String → String × Option GoError
  clientChat : List Event → ChatRequest → List ChatResponse × Option GoError

/-- Go `os.Getenv`: the value of the variable, empty when it is unset. -/
def Getenv (w : World) (key : String) : String :=
  (w.environ key).getD ""

/-! ## Host probes -/

/-- Go `getStorageInfo`: runs `df -h .` and returns its standard output. -/
def getStorageInfo (w : World) (tr : List Event) : (String × Option GoError) × List Event :=
  let r := w.cmdOutput tr ["df", "-h", "."]
  let tr1 := tr ++ [Event.exec ["df", "-h", "."]]
  match r.2 with
  | some err => (("", some err), tr1)
  | none => ((r.1, none), tr1)

/-- Go `getMemoryInfo`: runs `memory_pressure` and returns its standard output. -/
def getMemoryInfo (w : World) (tr : List Event) : (String × Option GoError) × List Event :=
  let r := w.cmdOutput tr ["memory_pressure"]
  let tr1 := tr ++ [Event.exec ["memory_pressure"]]
  match r.2 with
  | some err => (("", some err), tr1)
  | none => ((r.1, none), tr1)

/-! ## Tool dispatcher -/

/-- Go `processToolCalls`: the `for … range toolCalls` loop, one iteration per
list cell.  The result is the Go pair `(messages, err)`, a nil slice being the
empty list, together with the extended event trace. -/
def processToolCalls (w : World) (tr : List Event) (messages : List Message) :
    List ToolCall → (List Message × Option GoError) × List Event
  | [] => ((messages, none), tr)
  | tool :: rest =>
    let dispatched : Option ((String × Option GoError) × List Event) :=
      if tool.Function.Name = "get_storage_info" then some (getStorageInfo w tr)
      else if tool.Function.Name = "get_memory_info" then some (getMemoryInfo w tr)
      else none
    match dispatched with
    | none =>
      (([], some ErrNoSuchFunc),
        tr ++ [Event.log ("no such func: " ++ tool.Function.Name ++ "\n")])
    | some ((output, err), tr1) =>
      match err with
      | some e => (([], some e), tr1)
      | none =>
        processToolCalls w tr1
          (messages ++ [{ Role := "tool", Content := output,
                          ToolCalls := [{ Function := { Name := tool.Function.Name,
                                                        Arguments := tool.Function.Arguments } }] }])
          rest

/-! ## Chat transport -/

/-- The raw text of the `json.RawMessage` literal in `chat` (lines 40-56 of
`main.go`), tabs and line breaks included. -/
def healthReportFormat : String :=
  "\x7b\n" ++
  "\t\t\t\"type\":\"object\",\n" ++
  "\t\t\t\"properties\":\x7b\n" ++
  "\t\t\t\t\"overall_health\":\x7b\"type\":\"string\",\"enum\":[\"excellent\",\"good\",\"warn\",\"fatal\"]\x7d,\n" ++
  "\t\t\t\t\"storage_health\":\x7b\"type\":\"string\",\"enum\":[\"excellent\",\"good\",\"warn\",\"fatal\"]\x7d,\n" ++
  "\t\t\t\t\"memory_health\":\x7b\"type\":\"string\",\"enum\":[\"excellent\",\"good\",\"warn\",\"fatal\"]\x7d,\n" ++
  "\t\t\t\t\"memory_free_percent\":\x7b\"type\":\"number\"\x7d,\n" ++
  "\t\t\t\t\"storage_used_percent\":\x7b\"type\":\"number\"\x7d\n" ++
  "\t\t\t\x7d,\n" ++
  "\t\t\t\"required\":[\n" ++
  "\t\t\t\t\"overall_health\",\n" ++
  "\t\t\t\t\"storage_health\",\n" ++
  "\t\t\t\t\"memory_health\",\n" ++
  "\t\t\t\t\"memory_free_percent\",\n" ++
  "\t\t\t\t\"storage_used_percent\"\n" ++
  "\t\t\t]\n" ++
  "\t\t\x7d"

/-- The request that Go `chat` builds before it calls `client.Chat`
(lines 34-63). -/
def chatRequest (w : World) (messages : List Message) (tools : List Tool)
    (formatted : Bool) : ChatRequest :=
  let req : ChatRequest :=
    { Model := Getenv w "ENV_MODEL_NAME", Messages := messages, Stream := some false,
      Tools := tools, Format := healthReportFormat }
  let req := if !formatted then { req with Format := "" } else req
  if req.Model = "" then { req with Model := "llama3.2:3b" } else req

/-- Go `chat`: sends the request; the callback keeps the last response it is
handed, so the returned pointer is nil when the transport never calls it. -/
def chat (w : World) (tr : List Event) (messages : List Message) (tools : List Tool)
    (formatted : Bool) : (Option ChatResponse × Option GoError) × List Event :=
  let req := chatRequest w messages tools formatted
  let r := w.clientChat tr req
  let tr1 := tr ++ [Event.chatReq req]
  match r.2 with
  | some err => ((none, some err), tr1)
  | none => ((r.1.getLast?, none), tr1)

/-! ## Conversation driver -/

/-- Go `setupChat`. -/
def setupChat (msg : String) : List Message × List Tool :=
  ([{ Role := "user", Content := msg, ToolCalls := [] }],
   [{ Type_ := "function",
      Function := { Name := "get_storage_info", Description := "Get storage info" } },
    { Type_ := "function",
      Function := { Name := "get_memory_info", Description := "Get memory info" } }])

/-- How a call of `runChat` ends: it returns its `error` result, or the
program dereferences the nil response pointer. -/
inductive Outcome where
  | returned (err : Option GoError)
  | panicked
  deriving DecidableEq, Repr

/-- The seed prompt of `runChat` (lines 116-119). -/
def seedPrompt (w : World) : String :=
  let msg := Getenv w "ENV_PROMPT"
  if msg = "" then "Get Storage/memory info and generate short health report(<350 chars)."
  else msg

/-- Go `runChat`, started on the empty event trace. -/
def runChat (w : World) : Outcome × List Event :=
  match w.clientFromEnvironment with
  | some err => (Outcome.returned (some err), [])
  | none =>
    let msg := seedPrompt w
    let messages := (setupChat msg).1
    let tools := (setupChat msg).2
    let r0 := chat w [] messages tools false
    match r0.1.2 with
    | some err => (Outcome.returned (some err), r0.2)
    | none =>
      match r0.1.1 with
      | none => (Outcome.panicked, r0.2)
      | some res0 =>
        if res0.Message.ToolCalls.length = 0 then
          (Outcome.returned none, r0.2 ++ [Event.log "no calls got. try again"])
        else if res0.Message.ToolCalls.length ≠ 2 then
          (Outcome.returned none, r0.2 ++ [Event.log "too few calls. try again"])
        else
          let p := processToolCalls w r0.2 messages res0.Message.ToolCalls
          match p.1.2 with
          | some err => (Outcome.returned (some err), p.2)
          | none =>
            let messages := p.1.1
            let r1 := chat w p.2 messages [] true
            match r1.1.2 with
            | some err => (Outcome.returned (some err), r1.2)
            | none =>
              match r1.1.1 with
              | none => (Outcome.panicked, r1.2)
              | some final =>
                (Outcome.returned none, r1.2 ++ [Event.stdout (final.Message.Content ++ "\n")])

/-! ## Vocabulary of the statements -/

/-- The registry of the dispatcher (the `switch` of `processToolCalls` with the
command lines of the two probes): the command a tool name runs, if any. -/
def probeArgv (name : String) : Option (List String) :=
  if name = "get_storage_info" then some ["df", "-h", "."]
  else if name = "get_memory_info" then some ["memory_pressure"]
  else none

/-- The probe invocations caused by a list of calls that all succeed: one per
call with a registered name, in order. -/
def probeEvents (cs : List ToolCall) : List Event :=
  cs.filterMap (fun c => (probeArgv c.Function.Name).map Event.exec)

/-- The tool-role message appended for a call whose probe printed `output`
(lines 175-186). -/
def toolMessage (output : String) (c : ToolCall) : Message :=
  { Role := "tool", Content := output,
    ToolCalls := [{ Function := { Name := c.Function.Name,
                                  Arguments := c.Function.Arguments } }] }

/-! ## JSON texts

The driver never parses JSON; the statements about the `format` literal and
about the printed report need to say what a text denotes, so a reader of JSON
texts (RFC 8259 grammar) is given here.  Numbers are kept as their lexeme,
a `\u` escape is decoded to the character with that code. -/

/-- JSON values. -/
inductive Json where
  | null
  | bool (b : Bool)
  | num (lexeme : String)
  | str (s : String)
  | arr (items : List Json)
  | obj (members : List (String × Json))

/-- JSON white space. -/
def isWs (c : Char) : Bool :=
  c = ' ' || c = '\t' || c = '\n' || c = '\r'

/-- Drops leading white space. -/
def skipWs : List Char → List Char
  | [] => []
  | c :: cs => if isWs c then skipWs cs else c :: cs

/-- The value of a hexadecimal digit. -/
def hexVal (c : Char) : Option Nat :=
  if 48 ≤ c.toNat ∧ c.toNat ≤ 57 then some (c.toNat - 48)
  else if 97 ≤ c.toNat ∧ c.toNat ≤ 102 then some (c.toNat - 87)
  else if 65 ≤ c.toNat ∧ c.toNat ≤ 70 then some (c.toNat - 55)
  else none

/-- The character a one-letter escape stands for. -/
def unescape (c : Char) : Option Char :=
  if c = '"' then some '"'
  else if c = '\\' then some '\\'
  else if c = '/' then some '/'
  else if c = 'b' then some (Char.ofNat 8)
  else if c = 'f' then some (Char.ofNat 12)
  else if c = 'n' then some '\n'
  else if c = 'r' then some '\r'
  else if c = 't' then some '\t'
  else none

/-- Reads a string after its opening quote, up to and including the closing
quote; `acc` holds the characters read so far, last first. -/
def parseStringBody : Nat → List Char → List Char → Option (String × List Char)
  | 0, _, _ => none
  | _ + 1, [], _ => none
  | n + 1, c :: rest, acc =>
    if c = '"' then some (String.mk acc.reverse, rest)
    else if c = '\\' then
      match rest with
      | [] => none
      | e :: rest1 =>
        if e = 'u' then
          match rest1 with
          | a :: b :: x :: y :: rest2 =>
            match hexVal a, hexVal b, hexVal x, hexVal y with
            | some ha, some hb, some hx, some hy =>
              parseStringBody n rest2 (Char.ofNat (((ha * 16 + hb) * 16 + hx) * 16 + hy) :: acc)
            | _, _, _, _ => none
          | _ => none
        else
          match unescape e with
          | some ch => parseStringBody n rest1 (ch :: acc)
          | none => none
    else if c.toNat < 32 then none
    else parseStringBody n rest (c :: acc)

/-- Splits off the leading decimal digits. -/
def takeDigits : List Char → List Char × List Char
  | [] => ([], [])
  | c :: cs =>
    if c.isDigit then ((c :: (takeDigits cs).1), (takeDigits cs).2) else ([], c :: cs)

/-- Reads a JSON number: sign, integer part without leading zero, optional
fraction, optional exponent. -/
def parseNumber (cs : List Char) : Option (String × List Char) :=
  let sign : List Char := if cs.head? = some '-' then ['-'] else []
  let cs1 := if cs.head? = some '-' then cs.tail else cs
  let ip := takeDigits cs1
  if ip.1 = [] ∨ (ip.1.head? = some '0' ∧ ip.1.length ≠ 1) then none
  else
    let frac : Option (List Char × List Char) :=
      match ip.2 with
      | '.' :: r =>
        if (takeDigits r).1 = [] then none else some ('.' :: (takeDigits r).1, (takeDigits r).2)
      | r => some ([], r)
    match frac with
    | none => none
    | some (fr, r1) =>
      let ex : Option (List Char × List Char) :=
        match r1 with
        | e :: r2 =>
          if e = 'e' ∨ e = 'E' then
            let sg : List Char :=
              if r2.head? = some '+' ∨ r2.head? = some '-' then r2.take 1 else []
            let r3 := if r2.head? = some '+' ∨ r2.head? = some '-' then r2.tail else r2
            if (takeDigits r3).1 = [] then none
            else some (e :: sg ++ (takeDigits r3).1, (takeDigits r3).2)
          else some ([], r1)
        | [] => some ([], [])
      match ex with
      | none => none
      | some (exl, r4) => some (String.mk (sign ++ ip.1 ++ fr ++ exl), r4)

/-- Reads the elements of an array after `[` (at least one element), up to and
including `]`; `pv` reads one value. -/
def parseElements (pv : List Char → Option (Json × List Char)) :
    Nat → List Char → List Json → Option (List Json × List Char)
  | 0, _, _ => none
  | n + 1, cs, acc =>
    match pv cs with
    | none => none
    | some (v, r) =>
      match skipWs r with
      | d :: r1 =>
        if d = ',' then parseElements pv n r1 (acc ++ [v])
        else if d = ']' then some (acc ++ [v], r1)
        else none
      | [] => none

/-- Reads the members of an object after `{` (at least one member), up to and
including `}`; `pv` reads one value. -/
def parseMembers (pv : List Char → Option (Json × List Char)) :
    Nat → List Char → List (String × Json) → Option (List (String × Json) × List Char)
  | 0, _, _ => none
  | n + 1, cs, acc =>
    match skipWs cs with
    | q :: r =>
      if q = '"' then
        match parseStringBody (r.length + 1) r [] with
        | none => none
        | some (k, r1) =>
          match skipWs r1 with
          | colon :: r2 =>
            if colon = ':' then
              match pv r2 with
              | none => none
              | some (v, r3) =>
                match skipWs r3 with
                | d :: r4 =>
                  if d = ',' then parseMembers pv n r4 (acc ++ [(k, v)])
                  else if d = '}' then some (acc ++ [(k, v)], r4)
                  else none
                | [] => none
            else none
          | [] => none
      else none
    | [] => none

/-- Reads one JSON value and returns it with the rest of the text; `fuel`
bounds the nesting depth. -/
def parseValue : Nat → List Char → Option (Json × List Char)
  | 0, _ => none
  | fuel + 1, cs =>
    match skipWs cs with
    | [] => none
    | c :: rest =>
      if c = '{' then
        match skipWs rest with
        | d :: r =>
          if d = '}' then some (Json.obj [], r)
          else
            match parseMembers (parseValue fuel) (rest.length + 1) rest [] with
            | some (ms, r1) => some (Json.obj ms, r1)
            | none => none
        | [] => none
      else if c = '[' then
        match skipWs rest with
        | d :: r =>
          if d = ']' then some (Json.arr [], r)
          else
            match parseElements (parseValue fuel) (rest.length + 1) rest [] with
            | some (vs, r1) => some (Json.arr vs, r1)
            | none => none
        | [] => none
      else if c = '"' then
        match parseStringBody (rest.length + 1) rest [] with
        | some (s, r) => some (Json.str s, r)
        | none => none
      else if c = 't' then
        if rest.take 3 = ['r', 'u', 'e'] then some (Json.bool true, rest.drop 3) else none
      else if c = 'f' then
        if rest.take 4 = ['a', 'l', 's', 'e'] then some (Json.bool false, rest.drop 4) else none
      else if c = 'n' then
        if rest.take 3 = ['u', 'l', 'l'] then some (Json.null, rest.drop 3) else none
      else
        match parseNumber (c :: rest) with
        | some (lex, r) => some (Json.num lex, r)
        | none => none

/-- The value a text denotes: one JSON value, white space around it allowed,
nothing else after it. -/
def parseJson (text : String) : Option Json :=
  match parseValue (text.length + 1) text.data with
  | some (v, r) => if skipWs r = [] then some v else none
  | none => none

/-- The Health-Report Schema as the specification words it: an object schema
with five properties, three health tiers and two numbers, all required. -/
def healthTier : Json :=
  Json.obj [("type", Json.str "string"),
    ("enum", Json.arr [Json.str "excellent", Json.str "good", Json.str "warn", Json.str "fatal"])]

/-- The Health-Report Schema of the specification (section 4.2). -/
def HealthReportSchema : Json :=
  Json.obj [
    ("type", Json.str "object"),
    ("properties", Json.obj [
      ("overall_health", healthTier),
      ("storage_health", healthTier),
      ("memory_health", healthTier),
      ("memory_free_percent", Json.obj [("type", Json.str "number")]),
      ("storage_used_percent", Json.obj [("type", Json.str "number")])]),
    ("required", Json.arr [Json.str "overall_health", Json.str "storage_health",
      Json.str "memory_health", Json.str "memory_free_percent",
      Json.str "storage_used_percent"])]

/-- The fields every health report must carry. -/
def requiredFields : List String :=
  ["overall_health", "storage_health", "memory_health", "memory_free_percent",
   "storage_used_percent"]

/-- The chat requests of a trace, in the order they were sent. -/
def chatRequests (tr : List Event) : List ChatRequest :=
  tr.filterMap (fun e => match e with
    | Event.chatReq r => some r
    | _ => none)

/-- The writes to standard output of a trace, in order. -/
def stdoutWrites (tr : List Event) : List String :=
  tr.filterMap (fun e => match e with
    | Event.stdout s => some s
    | _ => none)

/-- The command lines run in a trace, in order. -/
def execs (tr : List Event) : List (List String) :=
  tr.filterMap (fun e => match e with
    | Event.exec argv => some argv
    | _ => none)

/-- Cuts a text into its lines; `cur` holds the current line, last character
first.  A final line need not end in a line break. -/
def splitLines : List Char → List Char → List String
  | [], cur => if cur = [] then [] else [String.mk cur.reverse]
  | c :: cs, cur =>
    if c = '\n' then String.mk cur.reverse :: splitLines cs [] else splitLines cs (c :: cur)

/-- The lines that a trace wrote to standard output. -/
def stdoutLines (tr : List Event) : List String :=
  splitLines ((stdoutWrites tr).map String.data).flatten []

/-- Whether a line of text is a JSON object that has every required field of
the Health-Report Schema. -/
def isHealthReport (line : String) : Bool :=
  match parseJson line with
  | some (Json.obj ms) => requiredFields.all (fun k => ms.any (fun kv => kv.1 = k))
  | _ => false

/-- Whether every tool-role message of a sequence comes after an assistant
message of that sequence whose tool calls name the same function. -/
def ToolAfterAssistant (msgs : List Message) : Prop :=
  ∀ (i : Nat) (msg : Message), msgs[i]? = some msg → msg.Role = "tool" →
    ∃ (j : Nat) (a : Message), j < i ∧ msgs[j]? = some a ∧ a.Role = "assistant" ∧
      ∃ tc ∈ a.ToolCalls, ∃ echo ∈ msg.ToolCalls, tc.Function.Name = echo.Function.Name

/-- The seed message list of a run (`setupChat` on the seed prompt). -/
@[reducible] def seedMessages (w : World) : List Message :=
  (setupChat (seedPrompt w)).1

/-- The tools declared in a run. -/
@[reducible] def declaredTools (w : World) : List Tool :=
  (setupChat (seedPrompt w)).2

/-- The turn-1 request of a run. -/
@[reducible] def turn1Request (w : World) : ChatRequest :=
  chatRequest w (seedMessages w) (declaredTools w) false

/-- The turn-1 call of the transport in a run. -/
@[reducible] def turn1 (w : World) : (Option ChatResponse × Option GoError) × List Event :=
  chat w [] (seedMessages w) (declaredTools w) false

/-- The dispatcher call of a run whose turn 1 answered `res0`. -/
@[reducible] def dispatch (w : World) (res0 : ChatResponse) :
    (List Message × Option GoError) × List Event :=
  processToolCalls w [Event.chatReq (turn1Request w)] (seedMessages w) res0.Message.ToolCalls

/-! ## Sample worlds -/

/-- A tool call without arguments. -/
def callOf (name : String) : ToolCall :=
  { Function := { Name := name, Arguments := [] } }

/-- An assistant response. -/
def assistantSays (content : String) (calls : List ToolCall) : ChatResponse :=
  { Message := { Role := "assistant", Content := content, ToolCalls := calls } }

/-- A world in which both probes succeed, the first chat turn answers with
`calls` and the second with `report`. -/
def sampleWorld (calls : List ToolCall) (report : String) : World :=
  { environ := fun _ => none
    clientFromEnvironment := none
    cmdOutput := fun _ argv => if argv = ["df", "-h", "."] then ("DF_OUT", none) else ("MP_OUT", none)
    clientChat := fun tr _ =>
      if tr = [] then ([assistantSays "" calls], none) else ([assistantSays report []], none) }

/-- The happy path of scenario S1. -/
def happyWorld : World :=
  sampleWorld [callOf "get_storage_info", callOf "get_memory_info"]
    ("\x7b\"overall_health\":\"good\",\"storage_health\":\"good\",\"memory_health\":\"good\"," ++
      "\"memory_free_percent\":42.0,\"storage_used_percent\":55.0\x7d")

/-- A world whose server ignores the schema on turn 2. -/
def chattyWorld : World :=
  sampleWorld [callOf "get_storage_info", callOf "get_memory_info"] "all good"

/-- A world whose server asks twice for a tool that is not registered. -/
def cpuWorld : World :=
  sampleWorld [callOf "get_cpu_info", callOf "get_cpu_info"] "unused"

/-- A world in which `df` fails and `memory_pressure` succeeds (scenario S5);
the server asks for the memory probe first. -/
def dfFailsWorld : World :=
  { environ := fun _ => none
    clientFromEnvironment := none
    cmdOutput := fun _ argv =>
      if argv = ["df", "-h", "."] then ("", some (GoError.external "exit status 1"))
      else ("MP_OUT", none)
    clientChat := fun _ _ =>
      ([assistantSays "" [callOf "get_memory_info", callOf "get_storage_info"]], none) }

/-- A world with both environment variables set (scenario S6). -/
def customWorld : World :=
  { environ := fun k =>
      if k = "ENV_MODEL_NAME" then some "custom:7b"
      else if k = "ENV_PROMPT" then some "X" else none
    clientFromEnvironment := none
    cmdOutput := fun _ _ => ("", none)
    clientChat := fun _ _ => ([assistantSays "" []], none) }

/-! ## One iteration of the dispatcher loop -/

theorem probeArgv_eq_none {name : String} (h : probeArgv name = none) :
    name ≠ "get_storage_info" ∧ name ≠ "get_memory_info" := by
  unfold probeArgv at h
  split_ifs at h with h1 h2
  exact ⟨h1, h2⟩

theorem processToolCalls_cons_unknown (w : World) (tr : List Event) (m : List Message)
    (c : ToolCall) (rest : List ToolCall) (h : probeArgv c.Function.Name = none) :
    processToolCalls w tr m (c :: rest)
      = (([], some ErrNoSuchFunc),
          tr ++ [Event.log ("no such func: " ++ c.Function.Name ++ "\n")]) := by
  obtain ⟨h1, h2⟩ := probeArgv_eq_none h
  simp [processToolCalls, h1, h2]

theorem processToolCalls_cons_err (w : World) (tr : List Event) (m : List Message)
    (c : ToolCall) (rest : List ToolCall) (argv : List String) (e : GoError)
    (h : probeArgv c.Function.Name = some argv) (he : (w.cmdOutput tr argv).2 = some e) :
    processToolCalls w tr m (c :: rest) = (([], some e), tr ++ [Event.exec argv]) := by
  unfold probeArgv at h
  split_ifs at h with h1 h2
  · cases h
    simp [processToolCalls, h1, getStorageInfo, he]
  · cases h
    simp [processToolCalls, h1, h2, getMemoryInfo, he]

theorem processToolCalls_cons_ok (w : World) (tr : List Event) (m : List Message)
    (c : ToolCall) (rest : List ToolCall) (argv : List String)
    (h : probeArgv c.Function.Name = some argv) (he : (w.cmdOutput tr argv).2 = none) :
    processToolCalls w tr m (c :: rest)
      = processToolCalls w (tr ++ [Event.exec argv])
          (m ++ [toolMessage (w.cmdOutput tr argv).1 c]) rest := by
  unfold probeArgv at h
  split_ifs at h with h1 h2
  · cases h
    simp [processToolCalls, h1, getStorageInfo, he, toolMessage]
  · cases h
    simp [processToolCalls, h1, h2, getMemoryInfo, he, toolMessage]

theorem probeEvents_cons_some (c : ToolCall) (cs : List ToolCall) (argv : List String)
    (h : probeArgv c.Function.Name = some argv) :
    probeEvents (c :: cs) = Event.exec argv :: probeEvents cs := by
  simp [probeEvents, List.filterMap_cons, h]

theorem probeEvents_cons_none (c : ToolCall) (cs : List ToolCall)
    (h : probeArgv c.Function.Name = none) :
    probeEvents (c :: cs) = probeEvents cs := by
  simp [probeEvents, List.filterMap_cons, h]

/-- Success path of the dispatcher, by induction over the call list. -/
theorem processToolCalls_ok_aux (w : World) :
    ∀ (cs : List ToolCall) (tr : List Event) (m : List Message) (outs : List String),
      outs.length = cs.length →
      (∀ (i : Nat) (c : ToolCall), cs[i]? = some c →
        ∃ argv o, probeArgv c.Function.Name = some argv ∧ outs[i]? = some o ∧
          w.cmdOutput (tr ++ probeEvents (cs.take i)) argv = (o, none)) →
      processToolCalls w tr m cs
        = ((m ++ List.zipWith toolMessage outs cs, none), tr ++ probeEvents cs) := by
  intro cs
  induction cs with
  | nil =>
    intro tr m outs _ _
    simp [processToolCalls, probeEvents]
  | cons c cs ih =>
    intro tr m outs hlen h
    obtain ⟨argv, o, hargv, ho, hout⟩ := h 0 c (by simp)
    cases outs with
    | nil => simp at hlen
    | cons o' os =>
      simp at ho
      subst ho
      simp [probeEvents] at hout
      have hstep := processToolCalls_cons_ok w tr m c cs argv hargv (by rw [hout])
      rw [hstep, hout]
      have hrec := ih (tr ++ [Event.exec argv]) (m ++ [toolMessage o' c]) os
        (by simpa using hlen)
        (by
          intro i ci hci
          obtain ⟨a, oi, ha, hoi, hcmd⟩ := h (i + 1) ci (by simpa using hci)
          refine ⟨a, oi, ha, by simpa using hoi, ?_⟩
          rw [List.take_succ_cons, probeEvents_cons_some c _ argv hargv] at hcmd
          simpa [List.append_assoc] using hcmd)
      rw [hrec, probeEvents_cons_some c cs argv hargv]
      simp [List.append_assoc]

/-- Failure path of the dispatcher, by induction over the call list. -/
theorem processToolCalls_fail_aux (w : World) :
    ∀ (cs : List ToolCall) (tr : List Event) (m : List Message) (i : Nat) (c : ToolCall)
      (e : GoError),
      cs[i]? = some c →
      (∀ (j : Nat) (cj : ToolCall), j < i → cs[j]? = some cj →
        ∃ argv, probeArgv cj.Function.Name = some argv ∧
          (w.cmdOutput (tr ++ probeEvents (cs.take j)) argv).2 = none) →
      ((probeArgv c.Function.Name = none ∧ e = ErrNoSuchFunc) ∨
        ∃ argv, probeArgv c.Function.Name = some argv ∧
          (w.cmdOutput (tr ++ probeEvents (cs.take i)) argv).2 = some e) →
      processToolCalls w tr m cs
        = (([], some e),
            tr ++ probeEvents (cs.take (i + 1)) ++
              (if probeArgv c.Function.Name = none
                then [Event.log ("no such func: " ++ c.Function.Name ++ "\n")] else [])) := by
  intro cs
  induction cs with
  | nil =>
    intro tr m i c e hc
    simp at hc
  | cons c0 cs ih =>
    intro tr m i c e hc hbefore hfail
    cases i with
    | zero =>
      simp at hc
      subst hc
      rcases hfail with ⟨hnone, he⟩ | ⟨argv, hargv, herr⟩
      · subst he
        rw [processToolCalls_cons_unknown w tr m c0 cs hnone]
        simp [probeEvents, hnone]
      · simp [probeEvents] at herr
        rw [processToolCalls_cons_err w tr m c0 cs argv e hargv herr]
        simp [probeEvents, hargv]
    | succ i =>
      obtain ⟨argv0, hargv0, hok0⟩ := hbefore 0 c0 (by omega) (by simp)
      simp [probeEvents] at hok0
      rw [processToolCalls_cons_ok w tr m c0 cs argv0 hargv0 hok0]
      have hrec := ih (tr ++ [Event.exec argv0]) (m ++ [toolMessage (w.cmdOutput tr argv0).1 c0])
        i c e (by simpa using hc)
        (by
          intro j cj hj hcj
          obtain ⟨a, ha, hcmd⟩ := hbefore (j + 1) cj (by omega) (by simpa using hcj)
          refine ⟨a, ha, ?_⟩
          rw [List.take_succ_cons, probeEvents_cons_some c0 _ argv0 hargv0] at hcmd
          simpa [List.append_assoc] using hcmd)
        (by
          rcases hfail with h1 | ⟨a, ha, hcmd⟩
          · exact Or.inl h1
          · refine Or.inr ⟨a, ha, ?_⟩
            rw [List.take_succ_cons, probeEvents_cons_some c0 _ argv0 hargv0] at hcmd
            simpa [List.append_assoc] using hcmd)
      rw [hrec, List.take_succ_cons, probeEvents_cons_some c0 _ argv0 hargv0]
      simp [List.append_assoc]

/-- Every call list falls under the success path or has a first failing call:
the two paths above cover all inputs of the dispatcher. -/
theorem processToolCalls_ok_or_first_failure (w : World) :
    ∀ (cs : List ToolCall) (tr : List Event),
      (∃ outs : List String, outs.length = cs.length ∧
        ∀ (i : Nat) (c : ToolCall), cs[i]? = some c →
          ∃ argv o, probeArgv c.Function.Name = some argv ∧ outs[i]? = some o ∧
            w.cmdOutput (tr ++ probeEvents (cs.take i)) argv = (o, none)) ∨
      (∃ (i : Nat) (c : ToolCall) (e : GoError), cs[i]? = some c ∧
        (∀ (j : Nat) (cj : ToolCall), j < i → cs[j]? = some cj →
          ∃ argv, probeArgv cj.Function.Name = some argv ∧
            (w.cmdOutput (tr ++ probeEvents (cs.take j)) argv).2 = none) ∧
        ((probeArgv c.Function.Name = none ∧ e = ErrNoSuchFunc) ∨
          ∃ argv, probeArgv c.Function.Name = some argv ∧
            (w.cmdOutput (tr ++ probeEvents (cs.take i)) argv).2 = some e)) := by
  intro cs
  induction cs with
  | nil =>
    intro tr
    exact Or.inl ⟨[], rfl, by simp⟩
  | cons c0 cs ih =>
    intro tr
    cases hp : probeArgv c0.Function.Name with
    | none =>
      exact Or.inr ⟨0, c0, ErrNoSuchFunc, by simp, by intro j cj hj; omega, Or.inl ⟨hp, rfl⟩⟩
    | some argv0 =>
      cases he : (w.cmdOutput tr argv0).2 with
      | some e =>
        exact Or.inr ⟨0, c0, e, by simp, by intro j cj hj; omega,
          Or.inr ⟨argv0, hp, by simpa [probeEvents] using he⟩⟩
      | none =>
        rcases ih (tr ++ [Event.exec argv0]) with ⟨outs, hl, hok⟩ | ⟨i, c, e, hc, hb, hf⟩
        · refine Or.inl ⟨(w.cmdOutput tr argv0).1 :: outs, by simp [hl], ?_⟩
          intro i c hc
          cases i with
          | zero =>
            simp at hc
            subst hc
            have hpair : w.cmdOutput tr argv0 = ((w.cmdOutput tr argv0).1, none) :=
              Prod.ext rfl he
            exact ⟨argv0, (w.cmdOutput tr argv0).1, hp, by simp,
              by simpa [probeEvents] using hpair⟩
          | succ i =>
            obtain ⟨a, o, ha, ho, hcmd⟩ := hok i c (by simpa using hc)
            refine ⟨a, o, ha, by simpa using ho, ?_⟩
            rw [List.take_succ_cons, probeEvents_cons_some c0 _ argv0 hp]
            simpa [List.append_assoc] using hcmd
        · refine Or.inr ⟨i + 1, c, e, by simpa using hc, ?_, ?_⟩
          · intro j cj hj hcj
            cases j with
            | zero =>
              simp at hcj
              subst hcj
              exact ⟨argv0, hp, by simpa [probeEvents] using he⟩
            | succ j =>
              obtain ⟨a, ha, hcmd⟩ := hb j cj (by omega) (by simpa using hcj)
              refine ⟨a, ha, ?_⟩
              rw [List.take_succ_cons, probeEvents_cons_some c0 _ argv0 hp]
              simpa [List.append_assoc] using hcmd
          · rcases hf with h1 | ⟨a, ha, hcmd⟩
            · exact Or.inl h1
            · refine Or.inr ⟨a, ha, ?_⟩
              rw [List.take_succ_cons, probeEvents_cons_some c0 _ argv0 hp]
              simpa [List.append_assoc] using hcmd

/-! ## Traces of the dispatcher and of the transport -/

theorem chat_trace (w : World) (tr : List Event) (m : List Message) (t : List Tool)
    (f : Bool) : (chat w tr m t f).2 = tr ++ [Event.chatReq (chatRequest w m t f)] := by
  unfold chat
  cases h : (w.clientChat tr (chatRequest w m t f)).2 <;> simp [h]

theorem chat_err_none (w : World) (tr : List Event) (m : List Message) (t : List Tool)
    (f : Bool) (e : GoError) (h : (chat w tr m t f).1.2 = some e) :
    (chat w tr m t f).1.1 = none := by
  unfold chat at h ⊢
  cases h2 : (w.clientChat tr (chatRequest w m t f)).2 <;> simp [h2] at h ⊢

/-- The dispatcher only runs probes and writes log lines: what it appends to
the trace holds no chat request and no write to standard output. -/
theorem processToolCalls_trace (w : World) :
    ∀ (cs : List ToolCall) (tr : List Event) (m : List Message),
      ∃ evs, (processToolCalls w tr m cs).2 = tr ++ evs ∧
        chatRequests evs = [] ∧ stdoutWrites evs = [] := by
  intro cs
  induction cs with
  | nil =>
    intro tr m
    exact ⟨[], by simp [processToolCalls], rfl, rfl⟩
  | cons c cs ih =>
    intro tr m
    cases hp : probeArgv c.Function.Name with
    | none =>
      rw [processToolCalls_cons_unknown w tr m c cs hp]
      exact ⟨_, rfl, rfl, rfl⟩
    | some argv =>
      cases he : (w.cmdOutput tr argv).2 with
      | some e =>
        rw [processToolCalls_cons_err w tr m c cs argv e hp he]
        exact ⟨_, rfl, rfl, rfl⟩
      | none =>
        rw [processToolCalls_cons_ok w tr m c cs argv hp he]
        obtain ⟨evs, h1, h2, h3⟩ :=
          ih (tr ++ [Event.exec argv]) (m ++ [toolMessage (w.cmdOutput tr argv).1 c])
        refine ⟨Event.exec argv :: evs, by simp [h1], ?_, ?_⟩
        · simpa [chatRequests] using h2
        · simpa [stdoutWrites] using h3

/-- When the dispatcher returns no error, it returns the given messages
followed by one tool message per call, in the order of the calls. -/
theorem processToolCalls_shape (w : World) :
    ∀ (cs : List ToolCall) (tr : List Event) (m : List Message),
      (processToolCalls w tr m cs).1.2 = none →
      ∃ outs : List String, outs.length = cs.length ∧
        (processToolCalls w tr m cs).1.1 = m ++ List.zipWith toolMessage outs cs := by
  intro cs
  induction cs with
  | nil =>
    intro tr m _
    exact ⟨[], rfl, by simp [processToolCalls]⟩
  | cons c cs ih =>
    intro tr m h
    cases hp : probeArgv c.Function.Name with
    | none =>
      rw [processToolCalls_cons_unknown w tr m c cs hp] at h
      simp at h
    | some argv =>
      cases he : (w.cmdOutput tr argv).2 with
      | some e =>
        rw [processToolCalls_cons_err w tr m c cs argv e hp he] at h
        simp at h
      | none =>
        rw [processToolCalls_cons_ok w tr m c cs argv hp he] at h ⊢
        obtain ⟨outs, hl, hm⟩ := ih _ _ h
        exact ⟨(w.cmdOutput tr argv).1 :: outs, by simp [hl], by simp [hm]⟩

/-- When the dispatcher returns an error, it returns the nil slice. -/
theorem processToolCalls_err_nil (w : World) :
    ∀ (cs : List ToolCall) (tr : List Event) (m : List Message) (e : GoError),
      (processToolCalls w tr m cs).1.2 = some e → (processToolCalls w tr m cs).1.1 = [] := by
  intro cs
  induction cs with
  | nil =>
    intro tr m e h
    simp [processToolCalls] at h
  | cons c cs ih =>
    intro tr m e h
    cases hp : probeArgv c.Function.Name with
    | none => rw [processToolCalls_cons_unknown w tr m c cs hp]
    | some argv =>
      cases he : (w.cmdOutput tr argv).2 with
      | some e1 => rw [processToolCalls_cons_err w tr m c cs argv e1 hp he]
      | none =>
        rw [processToolCalls_cons_ok w tr m c cs argv hp he] at h ⊢
        exact ih _ _ e h

/-! ## The paths of the driver -/

theorem runChat_client_err (w : World) (e : GoError) (h : w.clientFromEnvironment = some e) :
    runChat w = (Outcome.returned (some e), []) := by
  simp [runChat, h]

theorem runChat_turn1_err (w : World) (e : GoError) (h : w.clientFromEnvironment = none)
    (h1 : (chat w [] (setupChat (seedPrompt w)).1 (setupChat (seedPrompt w)).2 false).1.2
      = some e) :
    runChat w = (Outcome.returned (some e),
      [Event.chatReq (chatRequest w (setupChat (seedPrompt w)).1 (setupChat (seedPrompt w)).2
        false)]) := by
  simp [runChat, h, h1, chat_trace]

theorem runChat_turn1_nil (w : World) (h : w.clientFromEnvironment = none)
    (h1 : (chat w [] (setupChat (seedPrompt w)).1 (setupChat (seedPrompt w)).2 false).1
      = (none, none)) :
    runChat w = (Outcome.panicked,
      [Event.chatReq (chatRequest w (setupChat (seedPrompt w)).1 (setupChat (seedPrompt w)).2
        false)]) := by
  simp [runChat, h, h1, chat_trace]

theorem runChat_no_calls (w : World) (res0 : ChatResponse)
    (h : w.clientFromEnvironment = none)
    (h1 : (chat w [] (setupChat (seedPrompt w)).1 (setupChat (seedPrompt w)).2 false).1
      = (some res0, none))
    (h0 : res0.Message.ToolCalls.length = 0) :
    runChat w = (Outcome.returned none,
      [Event.chatReq (chatRequest w (setupChat (seedPrompt w)).1 (setupChat (seedPrompt w)).2
        false), Event.log "no calls got. try again"]) := by
  simp [runChat, h, h1, chat_trace, h0]

theorem runChat_wrong_count (w : World) (res0 : ChatResponse)
    (h : w.clientFromEnvironment = none)
    (h1 : (chat w [] (setupChat (seedPrompt w)).1 (setupChat (seedPrompt w)).2 false).1
      = (some res0, none))
    (h0 : res0.Message.ToolCalls.length ≠ 0) (h2 : res0.Message.ToolCalls.length ≠ 2) :
    runChat w = (Outcome.returned none,
      [Event.chatReq (chatRequest w (setupChat (seedPrompt w)).1 (setupChat (seedPrompt w)).2
        false), Event.log "too few calls. try again"]) := by
  simp [runChat, h, h1, chat_trace, h0, h2]

/-- With exactly two tool calls the driver continues with the dispatcher and,
when that returns no error, with turn 2. -/
theorem runChat_two_calls (w : World) (res0 : ChatResponse)
    (h : w.clientFromEnvironment = none)
    (h1 : (chat w [] (setupChat (seedPrompt w)).1 (setupChat (seedPrompt w)).2 false).1
      = (some res0, none))
    (h2 : res0.Message.ToolCalls.length = 2) :
    runChat w =
      (match (processToolCalls w
          [Event.chatReq (chatRequest w (setupChat (seedPrompt w)).1
            (setupChat (seedPrompt w)).2 false)]
          (setupChat (seedPrompt w)).1 res0.Message.ToolCalls) with
       | ((_, some err), tr2) => (Outcome.returned (some err), tr2)
       | ((msgs, none), tr2) =>
         match chat w tr2 msgs [] true with
         | ((_, some err), tr3) => (Outcome.returned (some err), tr3)
         | ((none, none), tr3) => (Outcome.panicked, tr3)
         | ((some final, none), tr3) =>
           (Outcome.returned none, tr3 ++ [Event.stdout (final.Message.Content ++ "\n")])) := by
  have ht := chat_trace w [] (setupChat (seedPrompt w)).1 (setupChat (seedPrompt w)).2 false
  simp only [runChat, h, h1, ht, h2]
  simp only [List.nil_append]
  generalize processToolCalls w _ _ _ = p
  obtain ⟨⟨msgs, perr⟩, tr2⟩ := p
  cases perr with
  | some e => simp
  | none =>
    simp
    generalize chat w tr2 msgs [] true = r
    obtain ⟨⟨resp, rerr⟩, tr3⟩ := r
    cases rerr <;> cases resp <;> simp

/-- Every run of the driver follows one of nine paths. -/
theorem runChat_cases (w : World) :
    (∃ e, w.clientFromEnvironment = some e ∧ runChat w = (Outcome.returned (some e), [])) ∨
    (w.clientFromEnvironment = none ∧
      ((∃ e, (turn1 w).1.2 = some e ∧
          runChat w = (Outcome.returned (some e), [Event.chatReq (turn1Request w)])) ∨
       ((turn1 w).1 = (none, none) ∧
          runChat w = (Outcome.panicked, [Event.chatReq (turn1Request w)])) ∨
       (∃ res0, (turn1 w).1 = (some res0, none) ∧
         ((res0.Message.ToolCalls.length = 0 ∧
            runChat w = (Outcome.returned none,
              [Event.chatReq (turn1Request w), Event.log "no calls got. try again"])) ∨
          (res0.Message.ToolCalls.length ≠ 0 ∧ res0.Message.ToolCalls.length ≠ 2 ∧
            runChat w = (Outcome.returned none,
              [Event.chatReq (turn1Request w), Event.log "too few calls. try again"])) ∨
          (res0.Message.ToolCalls.length = 2 ∧
            ∃ msgs perr tr2, dispatch w res0 = ((msgs, perr), tr2) ∧
              chatRequests tr2 = [turn1Request w] ∧ stdoutWrites tr2 = [] ∧
              ((∃ e, perr = some e ∧ runChat w = (Outcome.returned (some e), tr2)) ∨
               (perr = none ∧
                 ((∃ e, (chat w tr2 msgs [] true).1.2 = some e ∧
                    runChat w = (Outcome.returned (some e),
                      tr2 ++ [Event.chatReq (chatRequest w msgs [] true)])) ∨
                  ((chat w tr2 msgs [] true).1 = (none, none) ∧
                    runChat w = (Outcome.panicked,
                      tr2 ++ [Event.chatReq (chatRequest w msgs [] true)])) ∨
                  (∃ final, (chat w tr2 msgs [] true).1 = (some final, none) ∧
                    runChat w = (Outcome.returned none,
                      tr2 ++ [Event.chatReq (chatRequest w msgs [] true),
                        Event.stdout (final.Message.Content ++ "\n")])))))))))) := by
  cases hc : w.clientFromEnvironment with
  | some e => exact Or.inl ⟨e, rfl, runChat_client_err w e hc⟩
  | none =>
    refine Or.inr ⟨rfl, ?_⟩
    cases herr : (turn1 w).1.2 with
    | some e => exact Or.inl ⟨e, rfl, runChat_turn1_err w e hc herr⟩
    | none =>
      cases hres : (turn1 w).1.1 with
      | none =>
        have h1 : (turn1 w).1 = (none, none) := Prod.ext hres herr
        exact Or.inr (Or.inl ⟨h1, runChat_turn1_nil w hc h1⟩)
      | some res0 =>
        have h1 : (turn1 w).1 = (some res0, none) := Prod.ext hres herr
        refine Or.inr (Or.inr ⟨res0, h1, ?_⟩)
        by_cases h0 : res0.Message.ToolCalls.length = 0
        · exact Or.inl ⟨h0, runChat_no_calls w res0 hc h1 h0⟩
        by_cases h2 : res0.Message.ToolCalls.length = 2
        · refine Or.inr (Or.inr ⟨h2, ?_⟩)
          have hrun := runChat_two_calls w res0 hc h1 h2
          obtain ⟨evs, htr, hreq, hout⟩ :=
            processToolCalls_trace w res0.Message.ToolCalls [Event.chatReq (turn1Request w)]
              (seedMessages w)
          rcases hd : dispatch w res0 with ⟨⟨msgs, perr⟩, tr2⟩
          have htr2 : tr2 = [Event.chatReq (turn1Request w)] ++ evs := by
            have := congrArg Prod.snd hd
            simp only at this
            rw [← this]
            exact htr
          refine ⟨msgs, perr, tr2, rfl, ?_, ?_, ?_⟩
          · rw [htr2]
            simp [chatRequests] at hreq ⊢
            exact hreq
          · rw [htr2]
            simp [stdoutWrites] at hout ⊢
            exact hout
          · have hd2 : processToolCalls w
                [Event.chatReq (chatRequest w (setupChat (seedPrompt w)).1
                  (setupChat (seedPrompt w)).2 false)]
                (setupChat (seedPrompt w)).1 res0.Message.ToolCalls = ((msgs, perr), tr2) := hd
            rw [hd2] at hrun
            cases perr with
            | some e => exact Or.inl ⟨e, rfl, by simpa using hrun⟩
            | none =>
              refine Or.inr ⟨rfl, ?_⟩
              simp only at hrun
              have ht := chat_trace w tr2 msgs [] true
              rcases hch : chat w tr2 msgs [] true with ⟨⟨resp, rerr⟩, tr3⟩
              rw [hch] at hrun ht
              simp only at ht
              subst ht
              cases rerr with
              | some e => exact Or.inl ⟨e, rfl, by simpa using hrun⟩
              | none =>
                cases resp with
                | none => exact Or.inr (Or.inl ⟨rfl, by simpa using hrun⟩)
                | some final => exact Or.inr (Or.inr ⟨final, rfl, by simpa using hrun⟩)
        · exact Or.inr (Or.inl ⟨h0, h2, runChat_wrong_count w res0 hc h1 h0 h2⟩)

/-- The run that prints: turn 1 answers with two calls, the dispatcher and
turn 2 succeed. -/
theorem runChat_report (w : World) (res0 final : ChatResponse) (msgs : List Message)
    (tr2 : List Event) (h : w.clientFromEnvironment = none)
    (h1 : (turn1 w).1 = (some res0, none)) (h2 : res0.Message.ToolCalls.length = 2)
    (hd : dispatch w res0 = ((msgs, none), tr2))
    (h3 : (chat w tr2 msgs [] true).1 = (some final, none)) :
    runChat w = (Outcome.returned none,
      tr2 ++ [Event.chatReq (chatRequest w msgs [] true),
        Event.stdout (final.Message.Content ++ "\n")]) := by
  have hrun := runChat_two_calls w res0 h h1 h2
  have hd2 : processToolCalls w
      [Event.chatReq (chatRequest w (setupChat (seedPrompt w)).1
        (setupChat (seedPrompt w)).2 false)]
      (setupChat (seedPrompt w)).1 res0.Message.ToolCalls = ((msgs, none), tr2) := hd
  rw [hd2] at hrun
  simp only at hrun
  have ht := chat_trace w tr2 msgs [] true
  rcases hch : chat w tr2 msgs [] true with ⟨⟨resp, rerr⟩, tr3⟩
  rw [hch] at hrun ht h3
  simp only at ht h3
  subst ht
  cases h3
  simpa using hrun

/-- The run in which the dispatcher fails: its error is returned and nothing
follows it. -/
theorem runChat_dispatch_err (w : World) (res0 : ChatResponse) (msgs : List Message)
    (e : GoError) (tr2 : List Event) (h : w.clientFromEnvironment = none)
    (h1 : (turn1 w).1 = (some res0, none)) (h2 : res0.Message.ToolCalls.length = 2)
    (hd : dispatch w res0 = ((msgs, some e), tr2)) :
    runChat w = (Outcome.returned (some e), tr2) := by
  have hrun := runChat_two_calls w res0 h h1 h2
  have hd2 : processToolCalls w
      [Event.chatReq (chatRequest w (setupChat (seedPrompt w)).1
        (setupChat (seedPrompt w)).2 false)]
      (setupChat (seedPrompt w)).1 res0.Message.ToolCalls = ((msgs, some e), tr2) := hd
  rw [hd2] at hrun
  simpa using hrun

theorem chatRequests_append (a b : List Event) :
    chatRequests (a ++ b) = chatRequests a ++ chatRequests b := by
  simp [chatRequests, List.filterMap_append]

theorem stdoutWrites_append (a b : List Event) :
    stdoutWrites (a ++ b) = stdoutWrites a ++ stdoutWrites b := by
  simp [stdoutWrites, List.filterMap_append]

/-- What a run sends and prints: nothing; the turn-1 request only; or both
requests, the second carrying the messages of a successful dispatch, with the
report printed exactly when turn 2 hands back a response. -/
theorem runChat_summary (w : World) :
    (chatRequests (runChat w).2 = [] ∧ stdoutWrites (runChat w).2 = []) ∨
    (chatRequests (runChat w).2 = [turn1Request w] ∧ stdoutWrites (runChat w).2 = []) ∨
    (∃ res0 msgs tr2, w.clientFromEnvironment = none ∧ (turn1 w).1 = (some res0, none) ∧
      res0.Message.ToolCalls.length = 2 ∧ dispatch w res0 = ((msgs, none), tr2) ∧
      chatRequests (runChat w).2 = [turn1Request w, chatRequest w msgs [] true] ∧
      ((stdoutWrites (runChat w).2 = [] ∧ ∀ final, (chat w tr2 msgs [] true).1 ≠ (some final, none)) ∨
        ∃ final, (chat w tr2 msgs [] true).1 = (some final, none) ∧
          stdoutWrites (runChat w).2 = [final.Message.Content ++ "\n"])) := by
  rcases runChat_cases w with ⟨e, _, hr⟩ | ⟨hc, ⟨e, _, hr⟩ | ⟨_, hr⟩ | ⟨res0, h1, ⟨_, hr⟩ |
    ⟨_, _, hr⟩ | ⟨h2, msgs, perr, tr2, hd, hreq, hout, ⟨e, hp, hr⟩ |
      ⟨hp, ⟨e, h3, hr⟩ | ⟨h3, hr⟩ | ⟨final, h3, hr⟩⟩⟩⟩⟩
  · exact Or.inl (by rw [hr]; exact ⟨rfl, rfl⟩)
  · exact Or.inr (Or.inl (by rw [hr]; exact ⟨rfl, rfl⟩))
  · exact Or.inr (Or.inl (by rw [hr]; exact ⟨rfl, rfl⟩))
  · exact Or.inr (Or.inl (by rw [hr]; exact ⟨rfl, rfl⟩))
  · exact Or.inr (Or.inl (by rw [hr]; exact ⟨rfl, rfl⟩))
  · exact Or.inr (Or.inl (by rw [hr]; exact ⟨hreq, hout⟩))
  · subst hp
    refine Or.inr (Or.inr ⟨res0, msgs, tr2, hc, h1, h2, hd, ?_, Or.inl ⟨?_, ?_⟩⟩)
    · rw [hr]; simp only [chatRequests_append, hreq]; rfl
    · rw [hr]; simp only [stdoutWrites_append, hout]; rfl
    · intro final hf
      rw [hf] at h3
      simp at h3
  · subst hp
    refine Or.inr (Or.inr ⟨res0, msgs, tr2, hc, h1, h2, hd, ?_, Or.inl ⟨?_, ?_⟩⟩)
    · rw [hr]; simp only [chatRequests_append, hreq]; rfl
    · rw [hr]; simp only [stdoutWrites_append, hout]; rfl
    · intro final hf
      rw [hf] at h3
      simp at h3
  · subst hp
    refine Or.inr (Or.inr ⟨res0, msgs, tr2, hc, h1, h2, hd, ?_, Or.inr ⟨final, h3, ?_⟩⟩)
    · rw [hr]; simp only [chatRequests_append, hreq]; rfl
    · rw [hr]; simp only [stdoutWrites_append, hout]; rfl

/-! ## The request that the transport builds -/

theorem chatRequest_fields (w : World) (m : List Message) (t : List Tool) (f : Bool) :
    (chatRequest w m t f).Stream = some false ∧ (chatRequest w m t f).Messages = m ∧
    (chatRequest w m t f).Tools = t ∧
    (chatRequest w m t f).Format = (if f then healthReportFormat else "") ∧
    (chatRequest w m t f).Model
      = (match w.environ "ENV_MODEL_NAME" with
         | some v => if v = "" then "llama3.2:3b" else v
         | none => "llama3.2:3b") := by
  unfold chatRequest Getenv
  cases f <;> cases h : w.environ "ENV_MODEL_NAME" with
  | none => simp
  | some v => by_cases hv : v = "" <;> simp [hv]

theorem parseJson_healthReportFormat : parseJson healthReportFormat = some HealthReportSchema := by
  rfl

theorem seedPrompt_eq (w : World) :
    seedPrompt w
      = (match w.environ "ENV_PROMPT" with
         | some v =>
           if v = "" then "Get Storage/memory info and generate short health report(<350 chars)."
           else v
         | none => "Get Storage/memory info and generate short health report(<350 chars).") := by
  unfold seedPrompt Getenv
  cases h : w.environ "ENV_PROMPT" with
  | none => simp
  | some v => by_cases hv : v = "" <;> simp [hv]

/-! ## Tool messages and printed lines -/

theorem mem_zipWith_toolMessage :
    ∀ (outs : List String) (cs : List ToolCall) (msg : Message),
      msg ∈ List.zipWith toolMessage outs cs → ∃ o c, c ∈ cs ∧ msg = toolMessage o c := by
  intro outs
  induction outs with
  | nil =>
    intro cs msg h
    simp at h
  | cons o os ih =>
    intro cs msg h
    cases cs with
    | nil => simp at h
    | cons c cs =>
      simp only [List.zipWith_cons_cons, List.mem_cons] at h
      rcases h with h | h
      · exact ⟨o, c, by simp, h⟩
      · obtain ⟨o2, c2, hc2, hm⟩ := ih cs msg h
        exact ⟨o2, c2, by simp [hc2], hm⟩

theorem zipWith_toolMessage_covers :
    ∀ (outs : List String) (cs : List ToolCall), outs.length = cs.length →
      ∀ c ∈ cs, ∃ o, toolMessage o c ∈ List.zipWith toolMessage outs cs := by
  intro outs
  induction outs with
  | nil =>
    intro cs hlen c hc
    cases cs with
    | nil => simp at hc
    | cons _ _ => simp at hlen
  | cons o os ih =>
    intro cs hlen c hc
    cases cs with
    | nil => simp at hc
    | cons c0 cs =>
      simp only [List.mem_cons] at hc
      rcases hc with hc | hc
      · subst hc
        exact ⟨o, by simp⟩
      · obtain ⟨o2, h2⟩ := ih cs (by simpa using hlen) c hc
        exact ⟨o2, by simp [h2]⟩

theorem splitLines_one_line :
    ∀ (cs cur : List Char), '\n' ∉ cs →
      splitLines (cs ++ ['\n']) cur = [String.mk (cur.reverse ++ cs)] := by
  intro cs
  induction cs with
  | nil =>
    intro cur _
    simp [splitLines]
  | cons c cs ih =>
    intro cur h
    simp only [List.mem_cons, not_or] at h
    have hc : c ≠ '\n' := fun e => h.1 e.symm
    have hstep : splitLines (c :: cs ++ ['\n']) cur = splitLines (cs ++ ['\n']) (c :: cur) := by
      simp [splitLines, hc]
    rw [hstep, ih (c :: cur) h.2]
    simp

theorem stdoutLines_one_write (tr : List Event) (content : String)
    (hw : stdoutWrites tr = [content ++ "\n"]) (hn : '\n' ∉ content.data) :
    stdoutLines tr = [content] := by
  unfold stdoutLines
  rw [hw]
  simp only [List.map_cons, List.map_nil, List.flatten_cons, List.flatten_nil,
    List.append_nil, String.data_append]
  rw [splitLines_one_line content.data [] hn]
  simp

/-! ## The claims about the dispatcher -/

/-- C1: when every call of `cs` names a registered tool and every probe, run in
turn, succeeds (the i-th printing `outs[i]`), `processToolCalls` returns no
error and the given messages followed by one tool message per call, in the
order of the calls; the i-th has role "tool", the output of the probe selected
by the i-th name as content and a single tool call echoing name and arguments.
The given messages are a prefix of the result, its length is
`len(m) + len(cs)`, and exactly the probes of the calls are run, in order. -/
theorem processToolCalls_appends_one_per_call (w : World) (tr : List Event)
    (m : List Message) (cs : List ToolCall) (outs : List String)
    (hlen : outs.length = cs.length)
    (hok : ∀ (i : Nat) (c : ToolCall), cs[i]? = some c →
      ∃ argv o, probeArgv c.Function.Name = some argv ∧ outs[i]? = some o ∧
        w.cmdOutput (tr ++ probeEvents (cs.take i)) argv = (o, none)) :
    (processToolCalls w tr m cs).1.2 = none ∧
    (processToolCalls w tr m cs).1.1
      = m ++ List.zipWith (fun o c =>
          ({ Role := "tool", Content := o,
             ToolCalls := [{ Function := { Name := c.Function.Name,
                                           Arguments := c.Function.Arguments } }] } : Message))
          outs cs ∧
    m <+: (processToolCalls w tr m cs).1.1 ∧
    (processToolCalls w tr m cs).1.1.length = m.length + cs.length ∧
    (processToolCalls w tr m cs).2 = tr ++ probeEvents cs := by
  have h := processToolCalls_ok_aux w cs tr m outs hlen hok
  rw [h]
  refine ⟨rfl, rfl, ?_, ?_, rfl⟩
  · exact List.prefix_append _ _
  · simp [hlen]

/-- C1 on a list with a duplicate name: three calls give three tool messages. -/
theorem processToolCalls_appends_one_per_call_witness :
    (processToolCalls happyWorld [] [{ Role := "user", Content := "hi", ToolCalls := [] }]
      [callOf "get_storage_info", callOf "get_memory_info", callOf "get_storage_info"]).1
      = ([{ Role := "user", Content := "hi", ToolCalls := [] },
          { Role := "tool", Content := "DF_OUT", ToolCalls := [callOf "get_storage_info"] },
          { Role := "tool", Content := "MP_OUT", ToolCalls := [callOf "get_memory_info"] },
          { Role := "tool", Content := "DF_OUT", ToolCalls := [callOf "get_storage_info"] }],
         none) := by
  have h := processToolCalls_appends_one_per_call happyWorld []
    [{ Role := "user", Content := "hi", ToolCalls := [] }]
    [callOf "get_storage_info", callOf "get_memory_info", callOf "get_storage_info"]
    ["DF_OUT", "MP_OUT", "DF_OUT"] rfl
    (by
      intro i c hc
      rcases i with _ | _ | _ | i
      · simp at hc; subst hc; exact ⟨["df", "-h", "."], "DF_OUT", by decide, by simp, by decide⟩
      · simp at hc; subst hc; exact ⟨["memory_pressure"], "MP_OUT", by decide, by simp, by decide⟩
      · simp at hc; subst hc; exact ⟨["df", "-h", "."], "DF_OUT", by decide, by simp, by decide⟩
      · simp at hc)
  exact Prod.ext h.2.1 h.1

/-- C2: when call `i` of `cs` is the first that names no registered tool or
whose probe returns an error, every earlier probe having succeeded,
`processToolCalls` returns the nil slice and the error of call `i`
(`ErrNoSuchFunc` for an unknown name, the error of the probe otherwise), and
the probes it ran are those of the calls up to `i`, none of a later call. -/
theorem processToolCalls_first_failure (w : World) (tr : List Event) (m : List Message)
    (cs : List ToolCall) (i : Nat) (c : ToolCall) (e : GoError)
    (hc : cs[i]? = some c)
    (hbefore : ∀ (j : Nat) (cj : ToolCall), j < i → cs[j]? = some cj →
      ∃ argv, probeArgv cj.Function.Name = some argv ∧
        (w.cmdOutput (tr ++ probeEvents (cs.take j)) argv).2 = none)
    (hfail : (probeArgv c.Function.Name = none ∧ e = ErrNoSuchFunc) ∨
      ∃ argv, probeArgv c.Function.Name = some argv ∧
        (w.cmdOutput (tr ++ probeEvents (cs.take i)) argv).2 = some e) :
    (processToolCalls w tr m cs).1.1 = [] ∧
    (processToolCalls w tr m cs).1.2 = some e ∧
    (processToolCalls w tr m cs).2
      = tr ++ probeEvents (cs.take (i + 1)) ++
          (if probeArgv c.Function.Name = none
            then [Event.log ("no such func: " ++ c.Function.Name ++ "\n")] else []) ∧
    execs (processToolCalls w tr m cs).2 = execs tr ++ execs (probeEvents (cs.take (i + 1))) := by
  have h := processToolCalls_fail_aux w cs tr m i c e hc hbefore hfail
  rw [h]
  refine ⟨rfl, rfl, rfl, ?_⟩
  by_cases hn : probeArgv c.Function.Name = none
  · simp [execs, hn]
  · simp [execs, hn]

/-- C2 where `df` fails for the second of three calls: the message of the
first call is dropped and `memory_pressure` is not run a second time. -/
theorem processToolCalls_first_failure_witness :
    processToolCalls dfFailsWorld [] [{ Role := "user", Content := "hi", ToolCalls := [] }]
      [callOf "get_memory_info", callOf "get_storage_info", callOf "get_memory_info"]
      = (([], some (GoError.external "exit status 1")),
          [Event.exec ["memory_pressure"], Event.exec ["df", "-h", "."]]) := by
  have h := processToolCalls_first_failure dfFailsWorld []
    [{ Role := "user", Content := "hi", ToolCalls := [] }]
    [callOf "get_memory_info", callOf "get_storage_info", callOf "get_memory_info"]
    1 (callOf "get_storage_info") (GoError.external "exit status 1") rfl
    (by
      intro j cj hj hcj
      have hj0 : j = 0 := by omega
      subst hj0
      simp at hcj
      subst hcj
      exact ⟨["memory_pressure"], by decide, by decide⟩)
    (Or.inr ⟨["df", "-h", "."], by decide, by decide⟩)
  exact Prod.ext (Prod.ext h.1 h.2.1) h.2.2.1

/-! ## The claims about the transport -/

/-- C6: for all messages, tools and `formatted`, the request that `chat` builds
and sends has `stream = false` and carries the messages and tools unchanged;
its format is the empty raw value when `formatted = false` and, when
`formatted = true`, the literal of the source, which denotes the Health-Report
Schema of the specification: type "object", the five properties (three health
tiers with the four-valued enum, two numbers), all five and no others
required. -/
theorem chat_sends_request (w : World) (tr : List Event) (m : List Message) (t : List Tool)
    (formatted : Bool) :
    (chat w tr m t formatted).2 = tr ++ [Event.chatReq (chatRequest w m t formatted)] ∧
    (chatRequest w m t formatted).Stream = some false ∧
    (chatRequest w m t formatted).Messages = m ∧
    (chatRequest w m t formatted).Tools = t ∧
    (chatRequest w m t false).Format = "" ∧
    (chatRequest w m t true).Format = healthReportFormat ∧
    parseJson (chatRequest w m t true).Format = some HealthReportSchema := by
  have h := chatRequest_fields w m t formatted
  have hf := (chatRequest_fields w m t false).2.2.2.1
  have ht := (chatRequest_fields w m t true).2.2.2.1
  refine ⟨chat_trace w tr m t formatted, h.1, h.2.1, h.2.2.1, by simpa using hf, by simpa using ht, ?_⟩
  rw [show (chatRequest w m t true).Format = healthReportFormat by simpa using ht]
  exact parseJson_healthReportFormat

/-- C7: in every run at most two chat requests are sent and none has both a
non-empty tools list and a non-empty format: the first carries the two
declared tools with an empty format, the second (when there is one) an empty
tools list with the Health-Report Schema literal as format. -/
theorem tools_and_format_never_together (w : World) :
    (∀ req ∈ chatRequests (runChat w).2, ¬ (req.Tools ≠ [] ∧ req.Format ≠ "")) ∧
    (∀ req1, (chatRequests (runChat w).2)[0]? = some req1 →
      req1.Tools
        = [{ Type_ := "function",
             Function := { Name := "get_storage_info", Description := "Get storage info" } },
           { Type_ := "function",
             Function := { Name := "get_memory_info", Description := "Get memory info" } }] ∧
      req1.Format = "") ∧
    (∀ req2, (chatRequests (runChat w).2)[1]? = some req2 →
      req2.Tools = [] ∧ req2.Format = healthReportFormat ∧
      parseJson req2.Format = some HealthReportSchema) ∧
    (chatRequests (runChat w).2).length ≤ 2 := by
  have hf1 := chatRequest_fields w (seedMessages w) (declaredTools w) false
  have hfmt1 : (turn1Request w).Format = "" := by simpa using hf1.2.2.2.1
  have htools1 : (turn1Request w).Tools = declaredTools w := hf1.2.2.1
  rcases runChat_summary w with ⟨hr, _⟩ | ⟨hr, _⟩ | ⟨res0, msgs, tr2, _, _, _, _, hr, _⟩
  · rw [hr]
    simp
  · rw [hr]
    refine ⟨?_, ?_, ?_, by simp⟩
    · intro req hreq
      simp at hreq
      subst hreq
      simp [hfmt1]
    · intro req1 h1
      simp at h1
      subst h1
      exact ⟨htools1, hfmt1⟩
    · intro req2 h2
      simp at h2
  · have hf2 := chatRequest_fields w msgs [] true
    have hfmt2 : (chatRequest w msgs [] true).Format = healthReportFormat := by
      simpa using hf2.2.2.2.1
    rw [hr]
    refine ⟨?_, ?_, ?_, by simp⟩
    · intro req hreq
      simp at hreq
      rcases hreq with hreq | hreq
      · subst hreq
        simp [hfmt1]
      · subst hreq
        simp [hf2.2.2.1]
    · intro req1 h1
      simp at h1
      subst h1
      exact ⟨htools1, hfmt1⟩
    · intro req2 h2
      simp at h2
      subst h2
      exact ⟨hf2.2.2.1, hfmt2, by rw [hfmt2]; exact parseJson_healthReportFormat⟩

/-- C10: every request that `chat` builds, so every request of a run, carries
as model the value of `ENV_MODEL_NAME` when that is set and not empty, and
"llama3.2:3b" when it is unset or empty; the turn-1 request carries exactly one
message, of role "user", whose content is the value of `ENV_PROMPT` when that
is set and not empty and the default prompt otherwise. -/
theorem model_and_prompt_from_environment (w : World) :
    (∀ (m : List Message) (t : List Tool) (f : Bool),
      (chatRequest w m t f).Model
        = (match w.environ "ENV_MODEL_NAME" with
           | some v => if v = "" then "llama3.2:3b" else v
           | none => "llama3.2:3b")) ∧
    (∀ req ∈ chatRequests (runChat w).2,
      req.Model
        = (match w.environ "ENV_MODEL_NAME" with
           | some v => if v = "" then "llama3.2:3b" else v
           | none => "llama3.2:3b")) ∧
    (∀ req1, (chatRequests (runChat w).2)[0]? = some req1 →
      req1.Messages
        = [{ Role := "user",
             Content :=
               (match w.environ "ENV_PROMPT" with
                | some v =>
                  if v = "" then
                    "Get Storage/memory info and generate short health report(<350 chars)."
                  else v
                | none =>
                  "Get Storage/memory info and generate short health report(<350 chars)."),
             ToolCalls := [] }]) := by
  have hmodel := fun m t f => (chatRequest_fields w m t f).2.2.2.2
  have hmsgs : (turn1Request w).Messages
      = [{ Role := "user", Content := seedPrompt w, ToolCalls := [] }] :=
    (chatRequest_fields w (seedMessages w) (declaredTools w) false).2.1
  rw [seedPrompt_eq] at hmsgs
  refine ⟨hmodel, ?_, ?_⟩
  · rcases runChat_summary w with ⟨hr, _⟩ | ⟨hr, _⟩ | ⟨res0, msgs, tr2, _, _, _, _, hr, _⟩
    · rw [hr]; simp
    · rw [hr]
      intro req hreq
      simp at hreq
      subst hreq
      exact hmodel _ _ _
    · rw [hr]
      intro req hreq
      simp at hreq
      rcases hreq with hreq | hreq <;> subst hreq <;> exact hmodel _ _ _
  · rcases runChat_summary w with ⟨hr, _⟩ | ⟨hr, _⟩ | ⟨res0, msgs, tr2, _, _, _, _, hr, _⟩
    · rw [hr]; simp
    · rw [hr]
      intro req1 h1
      simp at h1
      subst h1
      exact hmsgs
    · rw [hr]
      intro req1 h1
      simp at h1
      subst h1
      exact hmsgs

/-! ## The claims about the driver -/

/-- C3 fails as stated: in `cpuWorld` turn 1 answers without error and with
exactly two tool calls, yet no turn-2 request is sent, because the dispatcher
rejects the unknown name. -/
theorem two_calls_without_turn2 :
    ¬ (∀ (w : World) (res0 : ChatResponse), w.clientFromEnvironment = none →
        (turn1 w).1 = (some res0, none) →
        ((chatRequests (runChat w).2).length = 2 ↔ res0.Message.ToolCalls.length = 2)) := by
  intro h
  have h2 := (h cpuWorld (assistantSays "" [callOf "get_cpu_info", callOf "get_cpu_info"])
    rfl (by decide)).mpr (by decide)
  revert h2
  decide

/-- C3, amended: after a turn-1 response returned without error, the driver
hands the calls to the dispatcher if and only if there are exactly 2 of them,
and then sends the turn-2 request if and only if the dispatcher returns no
error.  With 0 calls it logs "no calls got. try again", with any other count
different from 2 "too few calls. try again"; in both cases it returns no
error, runs no probe, sends no turn-2 request and prints nothing. -/
theorem turn1_validation (w : World) (res0 : ChatResponse)
    (h : w.clientFromEnvironment = none) (h1 : (turn1 w).1 = (some res0, none)) :
    (res0.Message.ToolCalls.length = 0 →
      runChat w = (Outcome.returned none,
        [Event.chatReq (turn1Request w), Event.log "no calls got. try again"])) ∧
    (res0.Message.ToolCalls.length ≠ 0 → res0.Message.ToolCalls.length ≠ 2 →
      runChat w = (Outcome.returned none,
        [Event.chatReq (turn1Request w), Event.log "too few calls. try again"])) ∧
    (res0.Message.ToolCalls.length ≠ 2 →
      (runChat w).1 = Outcome.returned none ∧ execs (runChat w).2 = [] ∧
      chatRequests (runChat w).2 = [turn1Request w] ∧ stdoutWrites (runChat w).2 = []) ∧
    (res0.Message.ToolCalls.length = 2 →
      (∀ e, (dispatch w res0).1.2 = some e →
        runChat w = (Outcome.returned (some e), (dispatch w res0).2)) ∧
      ((dispatch w res0).1.2 = none →
        chatRequests (runChat w).2
          = [turn1Request w, chatRequest w (dispatch w res0).1.1 [] true])) ∧
    ((chatRequests (runChat w).2).length = 2 ↔
      res0.Message.ToolCalls.length = 2 ∧ (dispatch w res0).1.2 = none) := by
  have hzero := runChat_no_calls w res0 h h1
  have hwrong := runChat_wrong_count w res0 h h1
  have hne : res0.Message.ToolCalls.length ≠ 2 →
      (runChat w).1 = Outcome.returned none ∧ execs (runChat w).2 = [] ∧
      chatRequests (runChat w).2 = [turn1Request w] ∧ stdoutWrites (runChat w).2 = [] := by
    intro h2
    by_cases h0 : res0.Message.ToolCalls.length = 0
    · rw [hzero h0]
      exact ⟨rfl, rfl, rfl, rfl⟩
    · rw [hwrong h0 h2]
      exact ⟨rfl, rfl, rfl, rfl⟩
  have herr : res0.Message.ToolCalls.length = 2 → ∀ e, (dispatch w res0).1.2 = some e →
      runChat w = (Outcome.returned (some e), (dispatch w res0).2) := by
    intro h2 e he
    exact runChat_dispatch_err w res0 (dispatch w res0).1.1 e (dispatch w res0).2 h h1 h2
      (Prod.ext (Prod.ext rfl he) rfl)
  have hok : res0.Message.ToolCalls.length = 2 → (dispatch w res0).1.2 = none →
      chatRequests (runChat w).2
        = [turn1Request w, chatRequest w (dispatch w res0).1.1 [] true] := by
    intro h2 hn
    rcases runChat_summary w with ⟨hr, _⟩ | ⟨hr, _⟩ | ⟨r, msgs, tr2, _, hr1, _, hd, hr, _⟩
    · rcases runChat_cases w with ⟨e, hc, _⟩ | ⟨_, ⟨e, he, _⟩ | ⟨hnil, _⟩ | ⟨r, hr1, ⟨h0, _⟩ |
        ⟨_, hn2, _⟩ | ⟨_, msgs, perr, tr2, hd, _, _, ⟨e, hp, _⟩ | ⟨hp, hrest⟩⟩⟩⟩
      · rw [h] at hc; cases hc
      · rw [h1] at he; cases he
      · rw [h1] at hnil; cases hnil
      · rw [h1] at hr1; cases hr1; omega
      · rw [h1] at hr1; cases hr1; exact absurd h2 hn2
      · rw [h1] at hr1; cases hr1
        rw [hd] at hn; subst hp; cases hn
      · rw [h1] at hr1; cases hr1
        rcases hrest with ⟨e, _, hrun⟩ | ⟨_, hrun⟩ | ⟨final, _, hrun⟩ <;>
          · rw [hrun, chatRequests_append] at hr
            simp [chatRequests] at hr
    · rcases runChat_cases w with ⟨e, hc, _⟩ | ⟨_, ⟨e, he, _⟩ | ⟨hnil, _⟩ | ⟨r, hr1, ⟨h0, _⟩ |
        ⟨_, hn2, _⟩ | ⟨_, msgs, perr, tr2, hd, hq, _, ⟨e, hp, _⟩ | ⟨hp, hrest⟩⟩⟩⟩
      · rw [h] at hc; cases hc
      · rw [h1] at he; cases he
      · rw [h1] at hnil; cases hnil
      · rw [h1] at hr1; cases hr1; omega
      · rw [h1] at hr1; cases hr1; exact absurd h2 hn2
      · rw [h1] at hr1; cases hr1
        rw [hd] at hn; subst hp; cases hn
      · rw [h1] at hr1; cases hr1
        rcases hrest with ⟨e, _, hrun⟩ | ⟨_, hrun⟩ | ⟨final, _, hrun⟩ <;>
          · rw [hrun, chatRequests_append, hq] at hr
            simp [chatRequests] at hr
    · rw [h1] at hr1
      cases hr1
      rw [hr, hd]
  refine ⟨hzero, hwrong, hne, fun h2 => ⟨herr h2, hok h2⟩, ?_⟩
  constructor
  · intro hlen
    have h2 : res0.Message.ToolCalls.length = 2 := by
      by_contra hc
      rw [(hne hc).2.2.1] at hlen
      simp at hlen
    refine ⟨h2, ?_⟩
    cases hd : (dispatch w res0).1.2 with
    | none => rfl
    | some e =>
      obtain ⟨evs, htr, hq, _⟩ := processToolCalls_trace w res0.Message.ToolCalls
        [Event.chatReq (turn1Request w)] (seedMessages w)
      rw [herr h2 e hd] at hlen
      have htr2 : (dispatch w res0).2 = [Event.chatReq (turn1Request w)] ++ evs := htr
      rw [htr2, chatRequests_append, hq] at hlen
      simp [chatRequests] at hlen
  · rintro ⟨h2, hn⟩
    rw [hok h2 hn]
    rfl

/-- C3 amended, on a turn-1 answer with three calls: the "too few calls" log
line, no probe, no second request. -/
theorem turn1_validation_witness :
    runChat (sampleWorld [callOf "get_storage_info", callOf "get_memory_info",
        callOf "get_storage_info"] "unused")
      = (Outcome.returned none,
          [Event.chatReq (turn1Request (sampleWorld [callOf "get_storage_info",
              callOf "get_memory_info", callOf "get_storage_info"] "unused")),
            Event.log "too few calls. try again"]) :=
  (turn1_validation
    (sampleWorld [callOf "get_storage_info", callOf "get_memory_info",
      callOf "get_storage_info"] "unused")
    (assistantSays "" [callOf "get_storage_info", callOf "get_memory_info",
      callOf "get_storage_info"])
    rfl (by decide)).2.1 (by decide) (by decide)

/-- A successful dispatch of a run hands back the seed messages followed by
one tool message per turn-1 call. -/
theorem dispatch_messages (w : World) (res0 : ChatResponse) (msgs : List Message)
    (tr2 : List Event) (hd : dispatch w res0 = ((msgs, none), tr2)) :
    ∃ outs : List String, outs.length = res0.Message.ToolCalls.length ∧
      msgs = [{ Role := "user", Content := seedPrompt w, ToolCalls := [] }]
        ++ List.zipWith toolMessage outs res0.Message.ToolCalls := by
  obtain ⟨outs, hl, hm⟩ := processToolCalls_shape w res0.Message.ToolCalls
    [Event.chatReq (turn1Request w)] (seedMessages w) (by
      have := congrArg (fun r => r.1.2) hd
      exact this)
  refine ⟨outs, hl, ?_⟩
  have h1 : (dispatch w res0).1.1 = msgs := by rw [hd]
  rw [← h1]
  exact hm

/-- C4 fails as stated: in the happy path the turn-2 request holds tool
messages but no assistant message before them. -/
theorem tool_message_without_assistant :
    ¬ (∀ (w : World), ∀ req ∈ chatRequests (runChat w).2, ToolAfterAssistant req.Messages) := by
  intro h
  have h2 := h happyWorld
    (chatRequest happyWorld
      [{ Role := "user", Content := seedPrompt happyWorld, ToolCalls := [] },
       toolMessage "DF_OUT" (callOf "get_storage_info"),
       toolMessage "MP_OUT" (callOf "get_memory_info")] [] true)
    (by decide) 1 (toolMessage "DF_OUT" (callOf "get_storage_info")) (by decide) (by decide)
  obtain ⟨j, a, hj, hget, hrole, _⟩ := h2
  have hj0 : j = 0 := by omega
  subst hj0
  have ha : a = { Role := "user", Content := seedPrompt happyWorld, ToolCalls := [] } := by
    have hm := (chatRequest_fields happyWorld
      [{ Role := "user", Content := seedPrompt happyWorld, ToolCalls := [] },
       toolMessage "DF_OUT" (callOf "get_storage_info"),
       toolMessage "MP_OUT" (callOf "get_memory_info")] [] true).2.1
    rw [hm] at hget
    simp at hget
    exact hget.symm
  rw [ha] at hrole
  revert hrole
  decide

/-- C4, amended: the turn-1 request holds no tool message; in the turn-2
request every tool message comes after the seed user message and echoes name
and arguments of a call among the tool calls of the turn-1 response message,
while that response message itself is not part of the sequence: no message of
the turn-2 request has role "assistant". -/
theorem tool_messages_echo_turn1_calls (w : World) :
    (∀ req1, (chatRequests (runChat w).2)[0]? = some req1 →
      ∀ msg ∈ req1.Messages, msg.Role ≠ "tool") ∧
    (∀ req2, (chatRequests (runChat w).2)[1]? = some req2 →
      ∃ res0, (turn1 w).1 = (some res0, none) ∧
        req2.Messages[0]? = some { Role := "user", Content := seedPrompt w, ToolCalls := [] } ∧
        (∀ msg ∈ req2.Messages, msg.Role ≠ "assistant") ∧
        ∀ (i : Nat) (msg : Message), req2.Messages[i]? = some msg → msg.Role = "tool" →
          0 < i ∧ ∃ c ∈ res0.Message.ToolCalls,
            msg.ToolCalls = [{ Function := { Name := c.Function.Name,
                                             Arguments := c.Function.Arguments } }]) := by
  have hm1 : (turn1Request w).Messages
      = [{ Role := "user", Content := seedPrompt w, ToolCalls := [] }] :=
    (chatRequest_fields w (seedMessages w) (declaredTools w) false).2.1
  have hseed : ∀ msg ∈ (turn1Request w).Messages, msg.Role ≠ "tool" := by
    intro msg hmsg
    rw [hm1] at hmsg
    simp at hmsg
    subst hmsg
    simp
  rcases runChat_summary w with ⟨hr, _⟩ | ⟨hr, _⟩ | ⟨res0, msgs, tr2, _, h1, _, hd, hr, _⟩
  · rw [hr]
    simp
  · rw [hr]
    refine ⟨?_, ?_⟩
    · intro req1 hq
      simp at hq
      subst hq
      exact hseed
    · intro req2 hq
      simp at hq
  · rw [hr]
    refine ⟨?_, ?_⟩
    · intro req1 hq
      simp at hq
      subst hq
      exact hseed
    · intro req2 hq
      simp at hq
      subst hq
      obtain ⟨outs, _, hmsgs⟩ := dispatch_messages w res0 msgs tr2 hd
      have hm2 : (chatRequest w msgs [] true).Messages = msgs :=
        (chatRequest_fields w msgs [] true).2.1
      rw [hm2, hmsgs]
      refine ⟨res0, h1, by simp, ?_, ?_⟩
      · intro msg hmsg
        simp only [List.mem_append, List.mem_singleton] at hmsg
        rcases hmsg with hmsg | hmsg
        · subst hmsg
          simp
        · obtain ⟨o, c, _, hm⟩ := mem_zipWith_toolMessage outs _ msg hmsg
          subst hm
          simp [toolMessage]
      · intro i msg hget hrole
        cases i with
        | zero =>
          simp at hget
          subst hget
          simp at hrole
        | succ i =>
          refine ⟨by omega, ?_⟩
          have hmem : msg ∈ List.zipWith toolMessage outs res0.Message.ToolCalls := by
            simp at hget
            exact List.getElem?_mem hget
          obtain ⟨o, c, hc, hm⟩ := mem_zipWith_toolMessage outs _ msg hmem
          exact ⟨c, hc, by rw [hm]; rfl⟩

/-- C5: when turn 1 answers with exactly 2 tool calls and a turn-2 request is
sent, that request holds, for every function name among the turn-1 calls, a
message of role "tool" whose echoed call carries that name. -/
theorem turn2_has_tool_message_for_each_name (w : World) (res0 : ChatResponse)
    (req2 : ChatRequest)
    (h1 : (turn1 w).1 = (some res0, none)) (h2 : res0.Message.ToolCalls.length = 2)
    (hreq : (chatRequests (runChat w).2)[1]? = some req2) :
    ∀ c ∈ res0.Message.ToolCalls, ∃ msg ∈ req2.Messages, msg.Role = "tool" ∧
      ∃ echo ∈ msg.ToolCalls, echo.Function.Name = c.Function.Name := by
  rcases runChat_summary w with ⟨hr, _⟩ | ⟨hr, _⟩ | ⟨r, msgs, tr2, _, hr1, _, hd, hr, _⟩
  · rw [hr] at hreq
    simp at hreq
  · rw [hr] at hreq
    simp at hreq
  · rw [h1] at hr1
    cases hr1
    rw [hr] at hreq
    simp at hreq
    subst hreq
    obtain ⟨outs, hl, hmsgs⟩ := dispatch_messages w res0 msgs tr2 hd
    have hm2 : (chatRequest w msgs [] true).Messages = msgs :=
      (chatRequest_fields w msgs [] true).2.1
    have _hcount := h2
    intro c hc
    obtain ⟨o, ho⟩ := zipWith_toolMessage_covers outs res0.Message.ToolCalls hl c hc
    refine ⟨toolMessage o c, ?_, rfl, ?_⟩
    · rw [hm2, hmsgs]
      exact List.mem_append_right _ ho
    · exact ⟨_, List.mem_singleton.mpr rfl, rfl⟩

/-- C5 on the happy path: the turn-2 request holds a tool message for
`get_memory_info`. -/
theorem turn2_has_tool_message_for_each_name_witness :
    ∃ msg ∈ (chatRequest happyWorld
        [{ Role := "user", Content := seedPrompt happyWorld, ToolCalls := [] },
         toolMessage "DF_OUT" (callOf "get_storage_info"),
         toolMessage "MP_OUT" (callOf "get_memory_info")] [] true).Messages,
      msg.Role = "tool" ∧
        ∃ echo ∈ msg.ToolCalls, echo.Function.Name = (callOf "get_memory_info").Function.Name :=
  turn2_has_tool_message_for_each_name happyWorld
    (assistantSays "" [callOf "get_storage_info", callOf "get_memory_info"])
    (chatRequest happyWorld
      [{ Role := "user", Content := seedPrompt happyWorld, ToolCalls := [] },
       toolMessage "DF_OUT" (callOf "get_storage_info"),
       toolMessage "MP_OUT" (callOf "get_memory_info")] [] true)
    (by decide) (by decide) (by decide)
    (callOf "get_memory_info") (by decide)

theorem dispatch_trace (w : World) (res0 : ChatResponse) (msgs : List Message)
    (perr : Option GoError) (tr2 : List Event) (hd : dispatch w res0 = ((msgs, perr), tr2)) :
    chatRequests tr2 = [turn1Request w] ∧ stdoutWrites tr2 = [] := by
  obtain ⟨evs, htr, hq, ho⟩ := processToolCalls_trace w res0.Message.ToolCalls
    [Event.chatReq (turn1Request w)] (seedMessages w)
  have h2 : (dispatch w res0).2 = tr2 := by rw [hd]
  have htr2 : tr2 = [Event.chatReq (turn1Request w)] ++ evs := by
    rw [← h2]
    exact htr
  rw [htr2, chatRequests_append, stdoutWrites_append, hq, ho]
  exact ⟨rfl, rfl⟩

/-- C8: every run writes to standard output at most once.  It writes exactly
once if and only if turn 1 hands back a response with exactly 2 tool calls, the
dispatcher returns no error and turn 2 hands back a response; the write is
then the content of the turn-2 message, unchanged, followed by one newline.
In every other run nothing is written, and when the dispatcher fails the run
returns its error and sends no turn-2 request. -/
theorem stdout_one_write_on_success_only (w : World) :
    (stdoutWrites (runChat w).2).length ≤ 1 ∧
    ((stdoutWrites (runChat w).2).length = 1 ↔
      ∃ res0 msgs tr2 final, w.clientFromEnvironment = none ∧
        (turn1 w).1 = (some res0, none) ∧ res0.Message.ToolCalls.length = 2 ∧
        dispatch w res0 = ((msgs, none), tr2) ∧
        (chat w tr2 msgs [] true).1 = (some final, none)) ∧
    (∀ res0 msgs tr2 final, w.clientFromEnvironment = none →
      (turn1 w).1 = (some res0, none) → res0.Message.ToolCalls.length = 2 →
      dispatch w res0 = ((msgs, none), tr2) →
      (chat w tr2 msgs [] true).1 = (some final, none) →
      stdoutWrites (runChat w).2 = [final.Message.Content ++ "\n"]) ∧
    ((stdoutWrites (runChat w).2).length ≠ 1 → stdoutWrites (runChat w).2 = []) ∧
    (∀ res0 msgs e tr2, w.clientFromEnvironment = none →
      (turn1 w).1 = (some res0, none) → res0.Message.ToolCalls.length = 2 →
      dispatch w res0 = ((msgs, some e), tr2) →
      runChat w = (Outcome.returned (some e), tr2) ∧
      chatRequests (runChat w).2 = [turn1Request w] ∧ stdoutWrites (runChat w).2 = []) := by
  have hrep : ∀ res0 msgs tr2 final, w.clientFromEnvironment = none →
      (turn1 w).1 = (some res0, none) → res0.Message.ToolCalls.length = 2 →
      dispatch w res0 = ((msgs, none), tr2) →
      (chat w tr2 msgs [] true).1 = (some final, none) →
      stdoutWrites (runChat w).2 = [final.Message.Content ++ "\n"] := by
    intro res0 msgs tr2 final h h1 h2 hd h3
    rw [runChat_report w res0 final msgs tr2 h h1 h2 hd h3, stdoutWrites_append,
      (dispatch_trace w res0 msgs none tr2 hd).2]
    rfl
  have hle : (stdoutWrites (runChat w).2).length ≤ 1 := by
    rcases runChat_summary w with ⟨_, ho⟩ | ⟨_, ho⟩ |
      ⟨_, _, _, _, _, _, _, _, ⟨ho, _⟩ | ⟨_, _, ho⟩⟩ <;> rw [ho] <;> simp
  refine ⟨hle, ⟨?_, ?_⟩, hrep, ?_, ?_⟩
  · intro hlen
    rcases runChat_summary w with ⟨_, ho⟩ | ⟨_, ho⟩ |
      ⟨res0, msgs, tr2, h, h1, h2, hd, _, ⟨ho, _⟩ | ⟨final, h3, _⟩⟩
    · rw [ho] at hlen; simp at hlen
    · rw [ho] at hlen; simp at hlen
    · rw [ho] at hlen; simp at hlen
    · exact ⟨res0, msgs, tr2, final, h, h1, h2, hd, h3⟩
  · rintro ⟨res0, msgs, tr2, final, h, h1, h2, hd, h3⟩
    rw [hrep res0 msgs tr2 final h h1 h2 hd h3]
    rfl
  · intro hne
    cases hs : stdoutWrites (runChat w).2 with
    | nil => rfl
    | cons a rest =>
      rw [hs] at hle hne
      cases rest with
      | nil => simp at hne
      | cons b rest2 => simp at hle
  · intro res0 msgs e tr2 h h1 h2 hd
    have hr := runChat_dispatch_err w res0 msgs e tr2 h h1 h2 hd
    rw [hr]
    exact ⟨rfl, dispatch_trace w res0 msgs (some e) tr2 hd⟩

/-- C9 fails as stated: in `chattyWorld` the server answers turn 2 with the
text "all good"; the run prints it, and the printed line is no JSON object. -/
theorem printed_line_not_a_report :
    ¬ (∀ (w : World), stdoutWrites (runChat w).2 ≠ [] →
        ∃ line, stdoutLines (runChat w).2 = [line] ∧ isHealthReport line = true) := by
  intro h
  obtain ⟨line, hl, hrep⟩ := h chattyWorld (by decide)
  have hlines : stdoutLines (runChat chattyWorld).2 = ["all good"] := by decide
  rw [hlines] at hl
  simp at hl
  subst hl
  revert hrep
  decide

/-- C9, amended: a run that produces output writes to standard output exactly
once, the content of the turn-2 message followed by one newline, without
checking it.  When that content holds no line break, exactly one line is
written, the content itself; so the line is a JSON object with every required
field of the Health-Report Schema whenever the content the server sent is
one. -/
theorem printed_line_is_turn2_content (w : World) (hout : stdoutWrites (runChat w).2 ≠ []) :
    ∃ res0 msgs tr2 final, (turn1 w).1 = (some res0, none) ∧
      dispatch w res0 = ((msgs, none), tr2) ∧
      (chat w tr2 msgs [] true).1 = (some final, none) ∧
      stdoutWrites (runChat w).2 = [final.Message.Content ++ "\n"] ∧
      ('\n' ∉ final.Message.Content.data →
        stdoutLines (runChat w).2 = [final.Message.Content]) ∧
      ('\n' ∉ final.Message.Content.data → isHealthReport final.Message.Content = true →
        ∃ line, stdoutLines (runChat w).2 = [line] ∧ isHealthReport line = true) := by
  rcases runChat_summary w with ⟨_, ho⟩ | ⟨_, ho⟩ |
    ⟨res0, msgs, tr2, h, h1, h2, hd, _, ⟨ho, _⟩ | ⟨final, h3, ho⟩⟩
  · exact absurd ho hout
  · exact absurd ho hout
  · exact absurd ho hout
  · refine ⟨res0, msgs, tr2, final, h1, hd, h3, ho, ?_, ?_⟩
    · exact stdoutLines_one_write _ _ ho
    · intro hn hrep
      exact ⟨final.Message.Content, stdoutLines_one_write _ _ ho hn, hrep⟩

/-- C9 amended, on the happy path of scenario S1: the one printed line is the
report the server sent. -/
theorem printed_line_is_turn2_content_witness :
    ∃ res0 msgs tr2 final, (turn1 happyWorld).1 = (some res0, none) ∧
      dispatch happyWorld res0 = ((msgs, none), tr2) ∧
      (chat happyWorld tr2 msgs [] true).1 = (some final, none) ∧
      stdoutWrites (runChat happyWorld).2 = [final.Message.Content ++ "\n"] ∧
      ('\n' ∉ final.Message.Content.data →
        stdoutLines (runChat happyWorld).2 = [final.Message.Content]) ∧
      ('\n' ∉ final.Message.Content.data → isHealthReport final.Message.Content = true →
        ∃ line, stdoutLines (runChat happyWorld).2 = [line] ∧ isHealthReport line = true) :=
  printed_line_is_turn2_content happyWorld (by decide)

end Sysinfo2Ollama
